import Mathlib

/-!
Verification of the classification-and-aggregation core of
`airavata_cerebrum/dataset/abc_mouse.py`.

A pandas `DataFrame` of cell metadata is embedded as a `List CellRecord`
(row-major).  Column-wise pandas operations (`str.endswith`, `isin`,
boolean masks, `groupby(...).sum()`) are embedded as the corresponding
per-record operations followed by grouped summation, which is exactly the
row-by-row semantics of the columnar code.  `float` division of integer
count columns is embedded as `pdiv` over `ℚ` with explicit `nan`/`inf`
results for zero denominators, mirroring IEEE-754 division of exact
integer values (all counts are small integers, exactly representable).
-/

/-- One row of the cell-metadata table.  The source column names are
`class` (a reserved word here, rendered `cls`), `subclass`,
`parcellation_structure` and `parcellation_substructure`. -/
structure CellRecord where
  cls : String
  subclass : String
  parcellation_structure : String
  parcellation_substructure : String
deriving DecidableEq, Repr

/-- Python `v.endswith(skey)`: `skey.data` is a suffix of `v.data`. -/
def endswith (v skey : String) : Bool :=
  decide (skey.data <:+ v.data)

/-- Pandas `col.isin(S)`: exact membership of the value in the label set. -/
def isin (v : String) (s : List String) : Bool :=
  decide (v ∈ s)

/-- Row-wise rendering of `predicate_flags_df`: one `(flag_column, Bool)`
entry per entry of `flag_key_map`, each obtained by `pred_fn` applied to
the value of the selected column, plus (when `exclude_column` is given) one
trailing column that is true iff no other flag of the row is true
(`~pred_df.any(axis=1)` in the source). -/
def predicate_flags_row (flag_key_map : List (String × String))
    (pred_fn : String → String → Bool) (exclude_column : Option String)
    (v : String) : List (String × Bool) :=
  let pred_dct := flag_key_map.map (fun p => (p.1, pred_fn v p.2))
  match exclude_column with
  | none => pred_dct
  | some c => pred_dct ++ [(c, !(pred_dct.any (fun p => p.2)))]

/-- Source `flag_key_map` of `cell_meta_ei_flags`: E maps to "Glut", I to "GABA". -/
def EI_FLAG_KEY_MAP : List (String × String) := [("E", "Glut"), ("I", "GABA")]

/-- Source `cell_meta_ei_flags`: concatenates to each row the flag columns
`E` (class endswith "Glut"), `I` (class endswith "GABA") and the exclude
column `O`.  `pd.concat([df, pred_df], axis=1)` pairs each record with its
flag row. -/
def cell_meta_ei_flags (area_cell_df : List CellRecord) :
    List (CellRecord × List (String × Bool)) :=
  area_cell_df.map
    (fun r => (r, predicate_flags_row EI_FLAG_KEY_MAP endswith (some "O") r.cls))

/-- Reading a named boolean flag column of one row. -/
def getFlag (fl : List (String × Bool)) (c : String) : Bool :=
  (fl.lookup c).getD false

/-! Taxonomy label sets (`GABA_SUBCLASS_SETMAP`, `GLUT_SUBCLASS_SETMAP`,
`GLUT_IT_SUBCLASS_SETMAP` in the source). -/

def VIP_SET : List String := ["046 Vip Gaba"]

def PVALB_SET : List String := ["051 Pvalb chandelier Gaba", "052 Pvalb Gaba"]

def SST_SET : List String := ["053 Sst Gaba", "265 PB Sst Gly-Gaba"]

def LAMP5_SET : List String := ["049 Lamp5 Gaba", "050 Lamp5 Lhx6 Gaba"]

def SST_CHODL_SET : List String := ["056 Sst Chodl Gaba"]

def ET_SET : List String := ["022 L5 ET CTX Glut"]

def CT_SET : List String := ["028 L6b/CT ENT Glut", "030 L6 CT CTX Glut", "031 CT SUB Glut"]

def NP_SET : List String := ["032 L5 NP CTX Glut", "033 NP SUB Glut", "034 NP PPP Glut"]

def IT_ENT_SET : List String :=
  ["003 L5/6 IT TPE-ENT Glut", "008 L2/3 IT ENT Glut",
   "009 L2/3 IT PIR-ENTl Glut", "011 L2 IT ENT-po Glut"]

def IT_CTX_SET : List String :=
  ["004 L6 IT CTX Glut", "005 L5 IT CTX Glut",
   "006 L4/5 IT CTX Glut", "007 L2/3 IT CTX Glut"]

def IT_OTHER_SET : List String :=
  ["002 IT EP-CLA Glut", "010 IT AON-TT-DP Glut", "018 L2 IT PPP-APr Glut",
   "019 L2/3 IT PPP Glut", "020 L2/3 IT RSP Glut"]

/-- Source entry IT of `GLUT_SUBCLASS_SETMAP`: the union of the nested IT sets. -/
def IT_SET : List String := IT_ENT_SET ++ IT_CTX_SET ++ IT_OTHER_SET

/-- All boolean flag columns written by
`cell_meta_type_flags = cell_meta_glut_flags ∘ cell_meta_gaba_flags ∘ cell_meta_ei_flags`. -/
structure Flags where
  E : Bool
  I : Bool
  O : Bool
  GABA : Bool
  Vip : Bool
  Pvalb : Bool
  Sst : Bool
  Lamp5 : Bool
  SstChodl : Bool
  GABAOther : Bool
  Glut : Bool
  ET : Bool
  CT : Bool
  NP : Bool
  IT : Bool
  ITENT : Bool
  ITCTX : Bool
  ITOther : Bool
  GlutOther : Bool
deriving DecidableEq, Repr

/-- The flag row of one record, following the three source passes:
`cell_meta_ei_flags` (E/I/O from the `class` column),
`cell_meta_gaba_flags` (GABA lineage and subtypes from `subclass`,
`GABA-Other = pred_gaba & ~any(named)`), and
`cell_meta_glut_flags` (Glut lineage, subtypes, nested IT subtypes,
`Glut-Other = pred_glut & ~any(["ET","CT","IT","NP"])`). -/
def type_flags_row (r : CellRecord) : Flags :=
  let ei := predicate_flags_row EI_FLAG_KEY_MAP endswith (some "O") r.cls
  let vip := isin r.subclass VIP_SET
  let pvalb := isin r.subclass PVALB_SET
  let sst := isin r.subclass SST_SET
  let lamp5 := isin r.subclass LAMP5_SET
  let sstChodl := isin r.subclass SST_CHODL_SET
  let et := isin r.subclass ET_SET
  let ct := isin r.subclass CT_SET
  let np := isin r.subclass NP_SET
  let it := isin r.subclass IT_SET
  { E := getFlag ei "E"
    I := getFlag ei "I"
    O := getFlag ei "O"
    GABA := endswith r.subclass "Gaba"
    Vip := vip
    Pvalb := pvalb
    Sst := sst
    Lamp5 := lamp5
    SstChodl := sstChodl
    GABAOther := endswith r.subclass "Gaba" && !(vip || pvalb || sst || sstChodl || lamp5)
    Glut := endswith r.subclass "Glut"
    ET := et
    CT := ct
    NP := np
    IT := it
    ITENT := isin r.subclass IT_ENT_SET
    ITCTX := isin r.subclass IT_CTX_SET
    ITOther := isin r.subclass IT_OTHER_SET
    GlutOther := endswith r.subclass "Glut" && !(et || ct || it || np) }

/-- Source `cell_meta_type_flags`: every record of the table paired with its flag
row. -/
def cell_meta_type_flags (area_cell_df : List CellRecord) :
    List (CellRecord × Flags) :=
  area_cell_df.map (fun r => (r, type_flags_row r))

/-! Grouped summation (`groupby(parcellation_substructure).sum()`).
Pandas emits one group per distinct key, in sorted key order; absent keys
produce no row.  The sort below is lexicographic on code points, the
order pandas uses for strings. -/

/-- Code-point lexicographic comparison of strings, as a boolean. -/
def le_chars : List Char → List Char → Bool
  | [], _ => true
  | _ :: _, [] => false
  | a :: as, b :: bs =>
    if a.toNat < b.toNat then true
    else if b.toNat < a.toNat then false
    else le_chars as bs

/-- String comparison used to order group keys. -/
def str_le (a b : String) : Bool :=
  le_chars a.data b.data

/-- Insertion into a sorted list. -/
def ordered_insert (a : String) : List String → List String
  | [] => [a]
  | b :: l => if str_le a b then a :: b :: l else b :: ordered_insert a l

/-- Insertion sort of the group keys. -/
def sort_keys (l : List String) : List String :=
  l.foldr ordered_insert []

/-- Distinct `parcellation_substructure` values of the classified table,
in the (sorted) order pandas `groupby` emits them. -/
def group_keys (df : List (CellRecord × Flags)) : List String :=
  sort_keys ((df.map (fun rc => rc.1.parcellation_substructure)).dedup)

/-- One row of `region_ei_ctx`: the per-substructure sums of every boolean
flag column of `sel_cols`, plus the derived columns
`T = E + I + O` and `EI = E + I` computed from those sums. -/
structure CountRow where
  key : String
  E : ℕ
  I : ℕ
  O : ℕ
  GABA : ℕ
  Vip : ℕ
  Pvalb : ℕ
  Sst : ℕ
  Lamp5 : ℕ
  SstChodl : ℕ
  GABAOther : ℕ
  Glut : ℕ
  ET : ℕ
  CT : ℕ
  NP : ℕ
  IT : ℕ
  ITENT : ℕ
  ITCTX : ℕ
  ITOther : ℕ
  GlutOther : ℕ
  T : ℕ
  EI : ℕ
deriving DecidableEq, Repr

/-- Summation of the boolean flag columns over one substructure group
(`groupby(...).sum()` sums booleans to integers), followed by the two
derived columns added after summation in `region_ccf_cell_types`. -/
def mkCountRow (k : String) (g : List (CellRecord × Flags)) : CountRow :=
  let e := g.countP (fun rc => rc.2.E)
  let i := g.countP (fun rc => rc.2.I)
  let o := g.countP (fun rc => rc.2.O)
  { key := k
    E := e
    I := i
    O := o
    GABA := g.countP (fun rc => rc.2.GABA)
    Vip := g.countP (fun rc => rc.2.Vip)
    Pvalb := g.countP (fun rc => rc.2.Pvalb)
    Sst := g.countP (fun rc => rc.2.Sst)
    Lamp5 := g.countP (fun rc => rc.2.Lamp5)
    SstChodl := g.countP (fun rc => rc.2.SstChodl)
    GABAOther := g.countP (fun rc => rc.2.GABAOther)
    Glut := g.countP (fun rc => rc.2.Glut)
    ET := g.countP (fun rc => rc.2.ET)
    CT := g.countP (fun rc => rc.2.CT)
    NP := g.countP (fun rc => rc.2.NP)
    IT := g.countP (fun rc => rc.2.IT)
    ITENT := g.countP (fun rc => rc.2.ITENT)
    ITCTX := g.countP (fun rc => rc.2.ITCTX)
    ITOther := g.countP (fun rc => rc.2.ITOther)
    GlutOther := g.countP (fun rc => rc.2.GlutOther)
    T := e + i + o
    EI := e + i }

/-- The grouped count table `region_ei_ctx` of `region_ccf_cell_types`:
one `CountRow` per distinct substructure key of the classified table. -/
def region_ei_ctx (df : List (CellRecord × Flags)) : List CountRow :=
  (group_keys df).map
    (fun k => mkCountRow k (df.filter (fun rc => rc.1.parcellation_substructure == k)))

/-- Result of dividing two integer count columns in pandas: a float that
is either an exact rational, `NaN` (0/0) or `+inf` (positive/0). -/
inductive PdFloat where
  | val (q : ℚ)
  | nan
  | inf
deriving DecidableEq, Repr

/-- Division of two nonnegative integer counts with float semantics:
`NaN` for `0/0`, `+inf` for `a/0` with `a > 0`, exact quotient otherwise. -/
def pdiv (a b : ℕ) : PdFloat :=
  if b ≠ 0 then .val ((a : ℚ) / (b : ℚ))
  else if a = 0 then .nan
  else .inf

/-- Python `s.replace(old, new)` on character lists, written with a fuel
argument so that it is structurally recursive (each step consumes at
least one character, so fuel equal to the string length never runs out):
replaces every (non-overlapping, leftmost-first) occurrence of `old` by
`new`; the empty pattern leaves the string unchanged (as Python does when
`new` is empty, the only way the source calls it). -/
def replace_go (old new : List Char) : ℕ → List Char → List Char
  | 0, s => s
  | _ + 1, [] => []
  | fuel + 1, c :: rest =>
    if old ≠ [] ∧ old <+: (c :: rest) then
      new ++ replace_go old new fuel ((c :: rest).drop old.length)
    else
      c :: replace_go old new fuel rest

/-- Entry point of the character-level replacement. -/
def replace_chars (old new s : List Char) : List Char :=
  replace_go old new s.length s

/-- Python `x.replace(ax, "")` as used for the `Layer` column. -/
def str_replace (x ax new : String) : String :=
  ⟨replace_chars ax.data new.data x.data⟩

/-- One row of the table built by `cell_meta_type_ratios`:
`Region`, `Layer`, `nregion`, and the named ratio columns in source
order (the per-category fraction columns are named fields here). -/
structure FractionRow where
  Region : String
  Layer : String
  nregion : ℕ
  inhibitory_fraction : PdFloat
  fraction_wi_region : PdFloat
  Vip_fraction : PdFloat
  Pvalb_fraction : PdFloat
  Sst_fraction : PdFloat
  Lamp5_fraction : PdFloat
  SstChodl_fraction : PdFloat
  ITENT_fraction : PdFloat
  ITCTX_fraction : PdFloat
  ITOther_fraction : PdFloat
  ET_fraction : PdFloat
  CT_fraction : PdFloat
  NP_fraction : PdFloat
  IT_fraction : PdFloat
deriving DecidableEq, Repr

/-- The row of `cell_meta_type_ratios` for one `CountRow`:
`Layer = x.replace(ax, "")`, `inhibitory fraction = I / EI`,
`fraction wi. region = T / nregion`, GABA subtype counts over `GABA`,
IT subtype and Glut subtype counts over `Glut`. -/
def ratio_row (ax : String) (nregion : ℕ) (row : CountRow) : FractionRow :=
  { Region := ax
    Layer := str_replace row.key ax ""
    nregion := nregion
    inhibitory_fraction := pdiv row.I row.EI
    fraction_wi_region := pdiv row.T nregion
    Vip_fraction := pdiv row.Vip row.GABA
    Pvalb_fraction := pdiv row.Pvalb row.GABA
    Sst_fraction := pdiv row.Sst row.GABA
    Lamp5_fraction := pdiv row.Lamp5 row.GABA
    SstChodl_fraction := pdiv row.SstChodl row.GABA
    ITENT_fraction := pdiv row.ITENT row.Glut
    ITCTX_fraction := pdiv row.ITCTX row.Glut
    ITOther_fraction := pdiv row.ITOther row.Glut
    ET_fraction := pdiv row.ET row.Glut
    CT_fraction := pdiv row.CT row.Glut
    NP_fraction := pdiv row.NP row.Glut
    IT_fraction := pdiv row.IT row.Glut }

/-- Source `cell_meta_type_ratios`: one `FractionRow` per row of the grouped
count table. -/
def cell_meta_type_ratios (area_sumdf : List CountRow) (ax : String)
    (nregion : ℕ) : List FractionRow :=
  area_sumdf.map (ratio_row ax nregion)

/-- Source `region_ccf_cell_types`: for each requested region, filter the table
to that region, skip it when empty, classify, group, derive ratios, and
record the three per-region results keyed by region name in request
order. -/
def region_ccf_cell_types (cell_ccf : List CellRecord) :
    List String →
      List (String × List (CellRecord × Flags)) ×
      List (String × List CountRow) ×
      List (String × List FractionRow)
  | [] => ([], [], [])
  | region :: rest =>
    let region_df := cell_ccf.filter (fun r => r.parcellation_structure == region)
    let prev := region_ccf_cell_types cell_ccf rest
    if region_df.length = 0 then prev
    else
      let classified := cell_meta_type_flags region_df
      let ctx := region_ei_ctx classified
      let ratios := cell_meta_type_ratios ctx region region_df.length
      ((region, classified) :: prev.1, (region, ctx) :: prev.2.1,
        (region, ratios) :: prev.2.2)

/-! Flattener `DFBuilder`: flattening of the nested query-result maps.  A Python
value that is either a scalar or a string-keyed mapping is embedded as
`RVal`; Python dicts preserve insertion order, so mappings are
association lists. -/

/-- A value of a region result map: a scalar leaf or a nested mapping. -/
inductive RVal (α : Type) where
  | scal (a : α)
  | dict (d : List (String × RVal α))

/-- The `isinstance(v, collections.abc.Mapping)` test. -/
def RVal.isDict {α : Type} : RVal α → Bool
  | .dict _ => true
  | .scal _ => false

/-- Source `DFBuilder.has_sub_region`: some value of the region map is itself a
mapping. -/
def has_sub_region {α : Type} (region_dct : List (String × RVal α)) : Bool :=
  region_dct.any (fun p => p.2.isDict)

/-- Source `DFBuilder.qry2dict`: the `subr_stats` accumulation loop, appending
either every value of a region map (when it has sub-regions) or the
region map itself. -/
def qry2dict {α : Type}
    (in_iter : List (List (String × List (String × RVal α)))) : List (RVal α) :=
  in_iter.foldl
    (fun subr_stats qry_result =>
      qry_result.foldl
        (fun acc p =>
          if has_sub_region p.2 then acc ++ p.2.map (fun q => q.2)
          else acc ++ [RVal.dict p.2])
        subr_stats)
    []

/-! Heap model for the frame-effect claim: pandas frames are mutable
objects, so `region_ccf_cell_types` is also embedded with an explicit
object store.  A stored frame is a list of records each carrying its
(mutable) boolean flag columns; `.copy()` is an allocation, `.loc[:, c] = s`
is a store to the owning reference. -/

/-- A stored data frame: records with their flag columns. -/
def FTable := List (CellRecord × List (String × Bool))

/-- The object store: allocated frames and the next fresh reference. -/
structure Heap where
  mem : ℕ → Option FTable
  next : ℕ

/-- The empty store. -/
def hempty : Heap := ⟨fun _ => none, 0⟩

/-- Allocation of a fresh frame (`.copy()`, `pd.concat`, `pd.read_csv`). -/
def halloc (h : Heap) (t : FTable) : Heap × ℕ :=
  (⟨fun r => if r = h.next then some t else h.mem r, h.next + 1⟩, h.next)

/-- In-place column store on an existing frame. -/
def hwrite (h : Heap) (r : ℕ) (t : FTable) : Heap :=
  ⟨fun x => if x = r then some t else h.mem x, h.next⟩

/-- Dereference. -/
def hread (h : Heap) (r : ℕ) : FTable :=
  (h.mem r).getD []

/-- Overwrite or append one named boolean column, row by row. -/
def upsert_flag (fl : List (String × Bool)) (c : String) (b : Bool) :
    List (String × Bool) :=
  if fl.any (fun p => p.1 == c) then
    fl.map (fun p => if p.1 == c then (p.1, b) else p)
  else fl ++ [(c, b)]

/-- Column store `df.loc[:, c] = f(row)` on a frame value. -/
def set_col (t : FTable) (c : String)
    (f : CellRecord × List (String × Bool) → Bool) : FTable :=
  t.map (fun row => (row.1, upsert_flag row.2 c (f row)))

/-- Column store `df.loc[:, c] = f(row)` through a reference. -/
def write_col (h : Heap) (r : ℕ) (c : String)
    (f : CellRecord × List (String × Bool) → Bool) : Heap :=
  hwrite h r (set_col (hread h r) c f)

/-- Source `cell_meta_ei_flags` on the store: `pd.concat` allocates a new frame
whose rows carry the three appended E/I/O flag columns. -/
def cell_meta_ei_flags_st (h : Heap) (r : ℕ) : Heap × ℕ :=
  let t := hread h r
  halloc h
    (t.map (fun row =>
      (row.1, row.2 ++ predicate_flags_row EI_FLAG_KEY_MAP endswith (some "O") row.1.cls)))

/-- Source `gaba_classifieds` of `cell_meta_gaba_flags`. -/
def GABA_CLASSIFIEDS : List String := ["Vip", "Pvalb", "Sst", "Sst-Chodl", "Lamp5"]

/-- Source `glut_classifieds` of `cell_meta_glut_flags`. -/
def GLUT_CLASSIFIEDS : List String := ["ET", "CT", "IT", "NP"]

/-- Source `cell_meta_gaba_flags` on the store: early return on an empty frame,
otherwise in-place stores of the GABA lineage column, the named subtype
columns, and `GABA-Other = pred_gaba & ~any(gaba_classifieds)`. -/
def cell_meta_gaba_flags_st (h : Heap) (r : ℕ) : Heap :=
  if (hread h r).length = 0 then h
  else
    let h1 := write_col h r "GABA" (fun row => endswith row.1.subclass "Gaba")
    let h2 := write_col h1 r "Vip" (fun row => isin row.1.subclass VIP_SET)
    let h3 := write_col h2 r "Pvalb" (fun row => isin row.1.subclass PVALB_SET)
    let h4 := write_col h3 r "Sst" (fun row => isin row.1.subclass SST_SET)
    let h5 := write_col h4 r "Lamp5" (fun row => isin row.1.subclass LAMP5_SET)
    let h6 := write_col h5 r "Sst-Chodl" (fun row => isin row.1.subclass SST_CHODL_SET)
    write_col h6 r "GABA-Other"
      (fun row => endswith row.1.subclass "Gaba" &&
        !(GABA_CLASSIFIEDS.any (fun c => getFlag row.2 c)))

/-- Source `cell_meta_glut_flags` on the store. -/
def cell_meta_glut_flags_st (h : Heap) (r : ℕ) : Heap :=
  if (hread h r).length = 0 then h
  else
    let h1 := write_col h r "Glut" (fun row => endswith row.1.subclass "Glut")
    let h2 := write_col h1 r "ET" (fun row => isin row.1.subclass ET_SET)
    let h3 := write_col h2 r "CT" (fun row => isin row.1.subclass CT_SET)
    let h4 := write_col h3 r "NP" (fun row => isin row.1.subclass NP_SET)
    let h5 := write_col h4 r "IT" (fun row => isin row.1.subclass IT_SET)
    let h6 := write_col h5 r "IT-ENT" (fun row => isin row.1.subclass IT_ENT_SET)
    let h7 := write_col h6 r "IT-CTX" (fun row => isin row.1.subclass IT_CTX_SET)
    let h8 := write_col h7 r "IT-Other" (fun row => isin row.1.subclass IT_OTHER_SET)
    write_col h8 r "Glut-Other"
      (fun row => endswith row.1.subclass "Glut" &&
        !(GLUT_CLASSIFIEDS.any (fun c => getFlag row.2 c)))

/-- Source `cell_meta_type_flags` on the store: the `pd.concat` of the E/I/O pass
allocates the frame that the GABA and Glut passes then mutate. -/
def cell_meta_type_flags_st (h : Heap) (r : ℕ) : Heap × ℕ :=
  let er := cell_meta_ei_flags_st h r
  let h2 := cell_meta_gaba_flags_st er.1 er.2
  (cell_meta_glut_flags_st h2 er.2, er.2)

/-- Source `sel_cols`, the list `ei_cols + GABA_COLUMNS + GLUT_COLUMNS`. -/
def SEL_COLS : List String :=
  ["parcellation_substructure", "E", "I", "O",
   "GABA", "Vip", "Pvalb", "Sst", "Lamp5", "Sst-Chodl", "GABA-Other",
   "Glut", "ET", "CT", "NP", "IT", "IT-ENT", "IT-CTX", "IT-Other", "Glut-Other"]

/-- Projection `region_df[sel_cols]`: column subset of a frame value. -/
def select_cols (t : FTable) : FTable :=
  t.map (fun row => (row.1, row.2.filter (fun p => SEL_COLS.contains p.1)))

/-- Grouped summation `groupby(...).sum()` reading the stored flag columns of a frame. -/
def mkCountRowF (k : String) (g : FTable) : CountRow :=
  let e := g.countP (fun row => getFlag row.2 "E")
  let i := g.countP (fun row => getFlag row.2 "I")
  let o := g.countP (fun row => getFlag row.2 "O")
  { key := k
    E := e
    I := i
    O := o
    GABA := g.countP (fun row => getFlag row.2 "GABA")
    Vip := g.countP (fun row => getFlag row.2 "Vip")
    Pvalb := g.countP (fun row => getFlag row.2 "Pvalb")
    Sst := g.countP (fun row => getFlag row.2 "Sst")
    Lamp5 := g.countP (fun row => getFlag row.2 "Lamp5")
    SstChodl := g.countP (fun row => getFlag row.2 "Sst-Chodl")
    GABAOther := g.countP (fun row => getFlag row.2 "GABA-Other")
    Glut := g.countP (fun row => getFlag row.2 "Glut")
    ET := g.countP (fun row => getFlag row.2 "ET")
    CT := g.countP (fun row => getFlag row.2 "CT")
    NP := g.countP (fun row => getFlag row.2 "NP")
    IT := g.countP (fun row => getFlag row.2 "IT")
    ITENT := g.countP (fun row => getFlag row.2 "IT-ENT")
    ITCTX := g.countP (fun row => getFlag row.2 "IT-CTX")
    ITOther := g.countP (fun row => getFlag row.2 "IT-Other")
    GlutOther := g.countP (fun row => getFlag row.2 "Glut-Other")
    T := e + i + o
    EI := e + i }

/-- Grouped counts of a stored frame. -/
def region_ei_ctx_f (t : FTable) : List CountRow :=
  (sort_keys ((t.map (fun row => row.1.parcellation_substructure)).dedup)).map
    (fun k => mkCountRowF k (t.filter (fun row => row.1.parcellation_substructure == k)))

/-- Source `region_ccf_cell_types` on the store: filter is a read, `.copy()` and
`pd.concat` allocate, the flag passes mutate only the allocated frames,
grouping and ratios are pure reads.  Returns the final store, the
references held by `region_cell_ccf`, and the two computed tables. -/
def region_ccf_cell_types_st (h : Heap) (ccfRef : ℕ) :
    List String →
      Heap × List (String × ℕ) × List (String × List CountRow) ×
        List (String × List FractionRow)
  | [] => (h, [], [], [])
  | region :: rest =>
    let region_view :=
      (hread h ccfRef).filter (fun row => row.1.parcellation_structure == region)
    if region_view.length = 0 then region_ccf_cell_types_st h ccfRef rest
    else
      let ha1 := halloc h region_view
      let hr2 := cell_meta_type_flags_st ha1.1 ha1.2
      let ha3 := halloc hr2.1 (select_cols (hread hr2.1 hr2.2))
      let ctx := region_ei_ctx_f (hread ha3.1 ha3.2)
      let ratios := cell_meta_type_ratios ctx region (hread ha3.1 hr2.2).length
      let prev := region_ccf_cell_types_st ha3.1 ccfRef rest
      (prev.1, (region, hr2.2) :: prev.2.1, (region, ctx) :: prev.2.2.1,
        (region, ratios) :: prev.2.2.2)

/-! Lemmas about the E/I/O flag pass. -/

/-- Two suffixes of equal length of the same string coincide, so no class
label ends with both "Glut" and "GABA". -/
theorem not_endswith_glut_gaba (s : String) :
    ¬(endswith s "Glut" = true ∧ endswith s "GABA" = true) := by
  rintro ⟨h1, h2⟩
  rw [endswith, decide_eq_true_iff] at h1 h2
  obtain ⟨t1, e1⟩ := h1
  obtain ⟨t2, e2⟩ := h2
  rw [← e2] at e1
  have l1 : ("Glut".data : List Char).length = 4 := by decide
  have l2 : ("GABA".data : List Char).length = 4 := by decide
  have hlen := congrArg List.length e1
  rw [List.length_append, List.length_append, l1, l2] at hlen
  have hl : t1.length = t2.length := by omega
  have heq := (List.append_inj e1 hl).2
  have hne : ("Glut".data : List Char) ≠ "GABA".data := by decide
  exact hne heq

/-- The `E` column of the E/I/O flag row. -/
theorem getFlag_ei_E (v : String) :
    getFlag (predicate_flags_row EI_FLAG_KEY_MAP endswith (some "O") v) "E" =
      endswith v "Glut" := rfl

/-- The `I` column of the E/I/O flag row. -/
theorem getFlag_ei_I (v : String) :
    getFlag (predicate_flags_row EI_FLAG_KEY_MAP endswith (some "O") v) "I" =
      endswith v "GABA" := rfl

/-- The `O` column of the E/I/O flag row is the negated disjunction of the
two named flags. -/
theorem getFlag_ei_O (v : String) :
    getFlag (predicate_flags_row EI_FLAG_KEY_MAP endswith (some "O") v) "O" =
      !(endswith v "Glut" || endswith v "GABA") := by
  cases h1 : endswith v "Glut" <;> cases h2 : endswith v "GABA" <;>
    simp only [getFlag, predicate_flags_row, EI_FLAG_KEY_MAP, h1, h2, List.map_cons,
      List.map_nil, List.any_cons, List.any_nil] <;> decide

/-- C1: for every record of a table classified by `cell_meta_ei_flags`,
exactly one of the three top-level flags E, I, O is true
(`E + I + O == 1`), E and I are never both true, and O is true exactly
when neither E nor I is. -/
theorem cell_meta_ei_flags_partition (df : List CellRecord)
    (row : CellRecord × List (String × Bool)) (h : row ∈ cell_meta_ei_flags df) :
    (getFlag row.2 "E").toNat + (getFlag row.2 "I").toNat + (getFlag row.2 "O").toNat = 1 ∧
    ¬(getFlag row.2 "E" = true ∧ getFlag row.2 "I" = true) ∧
    (getFlag row.2 "O" = true ↔
      getFlag row.2 "E" = false ∧ getFlag row.2 "I" = false) := by
  obtain ⟨r, _, rfl⟩ := List.mem_map.mp h
  rw [getFlag_ei_E, getFlag_ei_I, getFlag_ei_O]
  have hni := not_endswith_glut_gaba r.cls
  cases h1 : endswith r.cls "Glut" <;> cases h2 : endswith r.cls "GABA" <;>
    simp [h1, h2] at hni ⊢

/-- A record whose class label carries the excitatory suffix. -/
def crec1 : CellRecord := ⟨"01 ABC Glut", "s1", "A", "A1"⟩

/-- Witness for C1 at a concrete record. -/
theorem cell_meta_ei_flags_partition_witness :
    (crec1, predicate_flags_row EI_FLAG_KEY_MAP endswith (some "O") crec1.cls)
        ∈ cell_meta_ei_flags [crec1] ∧
    ((getFlag (predicate_flags_row EI_FLAG_KEY_MAP endswith (some "O") crec1.cls) "E").toNat +
      (getFlag (predicate_flags_row EI_FLAG_KEY_MAP endswith (some "O") crec1.cls) "I").toNat +
      (getFlag (predicate_flags_row EI_FLAG_KEY_MAP endswith (some "O") crec1.cls) "O").toNat = 1) :=
  ⟨by decide,
    (cell_meta_ei_flags_partition [crec1]
      (crec1, predicate_flags_row EI_FLAG_KEY_MAP endswith (some "O") crec1.cls)
      (by decide)).1⟩

/-- A record whose class label ends with "GABA" but whose subclass label
carries no inhibitory suffix at all. -/
def r_gaba_cls : CellRecord := ⟨"01 Foo GABA", "unmatched", "A", "A1"⟩

/-- C2 counterexample: `cell_meta_ei_flags` sets `I` from the `class`
column, so a record whose class ends with "GABA" has `I = true` even
though its subclass label ends with neither "Gaba" nor "GABA" — the
claimed "I iff subclass_label ends with the inhibitory marker" is false
at this record. -/
theorem ei_flags_I_not_from_subclass_cex :
    (r_gaba_cls, predicate_flags_row EI_FLAG_KEY_MAP endswith (some "O") r_gaba_cls.cls)
        ∈ cell_meta_ei_flags [r_gaba_cls] ∧
    getFlag (predicate_flags_row EI_FLAG_KEY_MAP endswith (some "O") r_gaba_cls.cls) "I" = true ∧
    endswith r_gaba_cls.subclass "Gaba" = false ∧
    endswith r_gaba_cls.subclass "GABA" = false := by decide

/-- C2 (amended): both top-level lineage flags come from the `class`
column — I iff class ends with "GABA", E iff class ends with "Glut",
O iff neither. -/
theorem cell_meta_ei_flags_class_suffixes (df : List CellRecord)
    (row : CellRecord × List (String × Bool)) (h : row ∈ cell_meta_ei_flags df) :
    (getFlag row.2 "I" = true ↔ endswith row.1.cls "GABA" = true) ∧
    (getFlag row.2 "E" = true ↔ endswith row.1.cls "Glut" = true) ∧
    (getFlag row.2 "O" = true ↔
      endswith row.1.cls "Glut" = false ∧ endswith row.1.cls "GABA" = false) := by
  obtain ⟨r, _, rfl⟩ := List.mem_map.mp h
  rw [getFlag_ei_E, getFlag_ei_I, getFlag_ei_O]
  cases h1 : endswith r.cls "Glut" <;> cases h2 : endswith r.cls "GABA" <;> simp [h1, h2]

/-- Witness for the amended C2 at a concrete record. -/
theorem cell_meta_ei_flags_class_suffixes_witness :
    (crec1, predicate_flags_row EI_FLAG_KEY_MAP endswith (some "O") crec1.cls)
        ∈ cell_meta_ei_flags [crec1] ∧
    (getFlag (predicate_flags_row EI_FLAG_KEY_MAP endswith (some "O") crec1.cls) "E" = true ↔
      endswith crec1.cls "Glut" = true) :=
  ⟨by decide,
    (cell_meta_ei_flags_class_suffixes [crec1]
      (crec1, predicate_flags_row EI_FLAG_KEY_MAP endswith (some "O") crec1.cls)
      (by decide)).2.1⟩

/-! Lemmas about the subtype flag passes. -/

/-- Sum of the GABA subtype flags (named subtypes and `GABA-Other`). -/
def gaba_subtype_count (f : Flags) : ℕ :=
  f.Vip.toNat + f.Pvalb.toNat + f.Sst.toNat + f.Lamp5.toNat +
    f.SstChodl.toNat + f.GABAOther.toNat

/-- Sum of the Glut subtype flags (named subtypes and `Glut-Other`). -/
def glut_subtype_count (f : Flags) : ℕ :=
  f.ET.toNat + f.CT.toNat + f.NP.toNat + f.IT.toNat + f.GlutOther.toNat

/-- Sum of the nested IT subtype flags. -/
def it_subtype_count (f : Flags) : ℕ :=
  f.ITENT.toNat + f.ITCTX.toNat + f.ITOther.toNat

/-- The GABA subtype flags of a subclass label sum to 1 when the label
carries the "Gaba" suffix and to 0 otherwise: the named label sets are
pairwise disjoint, every label in them ends with "Gaba", and `GABA-Other`
covers exactly the suffix-matching remainder. -/
theorem gaba_count_s (s : String) :
    (isin s VIP_SET).toNat + (isin s PVALB_SET).toNat + (isin s SST_SET).toNat +
      (isin s LAMP5_SET).toNat + (isin s SST_CHODL_SET).toNat +
      (endswith s "Gaba" &&
        !(isin s VIP_SET || isin s PVALB_SET || isin s SST_SET ||
          isin s SST_CHODL_SET || isin s LAMP5_SET)).toNat =
      if endswith s "Gaba" then 1 else 0 := by
  by_cases hmem : s ∈ VIP_SET ++ PVALB_SET ++ SST_SET ++ LAMP5_SET ++ SST_CHODL_SET
  · have hall : ∀ x ∈ VIP_SET ++ PVALB_SET ++ SST_SET ++ LAMP5_SET ++ SST_CHODL_SET,
        (isin x VIP_SET).toNat + (isin x PVALB_SET).toNat + (isin x SST_SET).toNat +
          (isin x LAMP5_SET).toNat + (isin x SST_CHODL_SET).toNat +
          (endswith x "Gaba" &&
            !(isin x VIP_SET || isin x PVALB_SET || isin x SST_SET ||
              isin x SST_CHODL_SET || isin x LAMP5_SET)).toNat =
          if endswith x "Gaba" then 1 else 0 := by decide
    exact hall s hmem
  · simp only [List.mem_append, not_or] at hmem
    obtain ⟨⟨⟨⟨hv, hp⟩, hs⟩, hl⟩, hc⟩ := hmem
    have ev : isin s VIP_SET = false := decide_eq_false hv
    have ep : isin s PVALB_SET = false := decide_eq_false hp
    have es : isin s SST_SET = false := decide_eq_false hs
    have el : isin s LAMP5_SET = false := decide_eq_false hl
    have ec : isin s SST_CHODL_SET = false := decide_eq_false hc
    rw [ev, ep, es, el, ec]
    cases hg : endswith s "Gaba" <;> simp [hg]

/-- The Glut subtype flags of a subclass label sum to 1 when the label
carries the "Glut" suffix and to 0 otherwise. -/
theorem glut_count_s (s : String) :
    (isin s ET_SET).toNat + (isin s CT_SET).toNat + (isin s NP_SET).toNat +
      (isin s IT_SET).toNat +
      (endswith s "Glut" &&
        !(isin s ET_SET || isin s CT_SET || isin s IT_SET || isin s NP_SET)).toNat =
      if endswith s "Glut" then 1 else 0 := by
  by_cases hmem : s ∈ ET_SET ++ CT_SET ++ NP_SET ++ IT_SET
  · have hall : ∀ x ∈ ET_SET ++ CT_SET ++ NP_SET ++ IT_SET,
        (isin x ET_SET).toNat + (isin x CT_SET).toNat + (isin x NP_SET).toNat +
          (isin x IT_SET).toNat +
          (endswith x "Glut" &&
            !(isin x ET_SET || isin x CT_SET || isin x IT_SET || isin x NP_SET)).toNat =
          if endswith x "Glut" then 1 else 0 := by decide
    exact hall s hmem
  · simp only [List.mem_append, not_or] at hmem
    obtain ⟨⟨⟨he, hc⟩, hn⟩, hi⟩ := hmem
    have ee : isin s ET_SET = false := decide_eq_false he
    have ec : isin s CT_SET = false := decide_eq_false hc
    have en : isin s NP_SET = false := decide_eq_false hn
    have ei : isin s IT_SET = false := decide_eq_false hi
    rw [ee, ec, en, ei]
    cases hg : endswith s "Glut" <;> simp [hg]

/-- The nested IT subtype flags of a subclass label sum to 1 exactly when
the label is an IT label (`IT_SET` is the union of the three disjoint
nested sets). -/
theorem it_count_s (s : String) :
    (isin s IT_ENT_SET).toNat + (isin s IT_CTX_SET).toNat + (isin s IT_OTHER_SET).toNat =
      if isin s IT_SET then 1 else 0 := by
  by_cases hmem : s ∈ IT_SET
  · have hall : ∀ x ∈ IT_SET,
        (isin x IT_ENT_SET).toNat + (isin x IT_CTX_SET).toNat + (isin x IT_OTHER_SET).toNat =
          if isin x IT_SET then 1 else 0 := by decide
    exact hall s hmem
  · have hmem2 := hmem
    rw [IT_SET] at hmem2
    simp only [List.mem_append, not_or] at hmem2
    obtain ⟨⟨h1, h2⟩, h3⟩ := hmem2
    have e1 : isin s IT_ENT_SET = false := decide_eq_false h1
    have e2 : isin s IT_CTX_SET = false := decide_eq_false h2
    have e3 : isin s IT_OTHER_SET = false := decide_eq_false h3
    have e4 : isin s IT_SET = false := decide_eq_false hmem
    rw [e1, e2, e3, e4]
    simp

/-- Flag-level form of `gaba_count_s`. -/
theorem gaba_subtype_count_flags (r : CellRecord) :
    gaba_subtype_count (type_flags_row r) =
      if endswith r.subclass "Gaba" then 1 else 0 :=
  gaba_count_s r.subclass

/-- Flag-level form of `glut_count_s`. -/
theorem glut_subtype_count_flags (r : CellRecord) :
    glut_subtype_count (type_flags_row r) =
      if endswith r.subclass "Glut" then 1 else 0 :=
  glut_count_s r.subclass

/-- Flag-level form of `it_count_s`. -/
theorem it_subtype_count_flags (r : CellRecord) :
    it_subtype_count (type_flags_row r) =
      if isin r.subclass IT_SET then 1 else 0 :=
  it_count_s r.subclass

/-- A record whose class label ends with "Glut" while its subclass label
matches nothing: E is true but no Glut subtype flag fires. -/
def r_glut_cls : CellRecord := ⟨"01 Foo Glut", "unmatched", "A", "A1"⟩

/-- A record with the Vip subclass label. -/
def r_vip : CellRecord := ⟨"02 Bar GABA", "046 Vip Gaba", "A", "A1"⟩

/-- A record with an IT-CTX subclass label. -/
def r_it : CellRecord := ⟨"03 Baz Glut", "004 L6 IT CTX Glut", "A", "A1"⟩

/-- C3 counterexample: the subtype partitions are guarded by the
subclass-based lineage flags `Glut`/`GABA`, not by the class-based
top-level flags.  At this record `E` is true (class ends with "Glut")
yet none of {ET, CT, NP, IT, Glut-Other} is true, refuting
"if E is true then exactly one of them is". -/
theorem type_flags_E_subtype_cex :
    (r_glut_cls, type_flags_row r_glut_cls) ∈ cell_meta_type_flags [r_glut_cls] ∧
    (type_flags_row r_glut_cls).E = true ∧
    glut_subtype_count (type_flags_row r_glut_cls) = 0 := by decide

/-- C3 (amended): for every record classified by `cell_meta_type_flags`,
if the Glut lineage flag (subclass ends with "Glut") is true then exactly
one of {ET, CT, NP, IT, Glut-Other} is true; if the GABA lineage flag
(subclass ends with "Gaba") is true then exactly one of
{Vip, Pvalb, Sst, Lamp5, Sst-Chodl, GABA-Other} is true; and if IT is
true then exactly one of {IT-ENT, IT-CTX, IT-Other} is true. -/
theorem type_flags_lineage_subtype_partition (df : List CellRecord)
    (rc : CellRecord × Flags) (h : rc ∈ cell_meta_type_flags df) :
    (rc.2.Glut = true → glut_subtype_count rc.2 = 1) ∧
    (rc.2.GABA = true → gaba_subtype_count rc.2 = 1) ∧
    (rc.2.IT = true → it_subtype_count rc.2 = 1) := by
  obtain ⟨r, _, rfl⟩ := List.mem_map.mp h
  refine ⟨fun hg => ?_, fun hg => ?_, fun hg => ?_⟩
  · rw [glut_subtype_count_flags]
    rw [show (type_flags_row r).Glut = endswith r.subclass "Glut" from rfl] at hg
    simp [hg]
  · rw [gaba_subtype_count_flags]
    rw [show (type_flags_row r).GABA = endswith r.subclass "Gaba" from rfl] at hg
    simp [hg]
  · rw [it_subtype_count_flags]
    rw [show (type_flags_row r).IT = isin r.subclass IT_SET from rfl] at hg
    simp [hg]

/-- Witness for the amended C3 at two concrete records: an IT-CTX record
discharges the Glut and IT hypotheses, a Vip record the GABA one. -/
theorem type_flags_lineage_subtype_partition_witness :
    (r_it, type_flags_row r_it) ∈ cell_meta_type_flags [r_it] ∧
    (r_vip, type_flags_row r_vip) ∈ cell_meta_type_flags [r_vip] ∧
    (type_flags_row r_it).Glut = true ∧
    (type_flags_row r_it).IT = true ∧
    (type_flags_row r_vip).GABA = true ∧
    glut_subtype_count (type_flags_row r_it) = 1 ∧
    it_subtype_count (type_flags_row r_it) = 1 ∧
    gaba_subtype_count (type_flags_row r_vip) = 1 := by
  refine ⟨by decide, by decide, by decide, by decide, by decide, ?_, ?_, ?_⟩
  · exact (type_flags_lineage_subtype_partition [r_it] (r_it, type_flags_row r_it)
      (by decide)).1 (by decide)
  · exact (type_flags_lineage_subtype_partition [r_it] (r_it, type_flags_row r_it)
      (by decide)).2.2 (by decide)
  · exact (type_flags_lineage_subtype_partition [r_vip] (r_vip, type_flags_row r_vip)
      (by decide)).2.1 (by decide)

/-! Lemmas about the grouped count table. -/

/-- Per-record form of the E/I/O partition at the `Flags` level. -/
theorem ei_toNat_one (r : CellRecord) :
    (type_flags_row r).E.toNat + (type_flags_row r).I.toNat +
      (type_flags_row r).O.toNat = 1 := by
  rw [show (type_flags_row r).E = endswith r.cls "Glut" from rfl,
      show (type_flags_row r).I = endswith r.cls "GABA" from rfl,
      show (type_flags_row r).O =
        getFlag (predicate_flags_row EI_FLAG_KEY_MAP endswith (some "O") r.cls) "O" from rfl,
      getFlag_ei_O]
  have hni := not_endswith_glut_gaba r.cls
  cases h1 : endswith r.cls "Glut" <;> cases h2 : endswith r.cls "GABA" <;>
    simp [h1, h2] at hni ⊢

/-- Summing the three E/I/O counts over records whose flags were produced
by the classifier yields the number of records. -/
theorem countP_eio_parts (g : List (CellRecord × Flags))
    (hg : ∀ rc ∈ g, rc.2 = type_flags_row rc.1) :
    g.countP (fun rc => rc.2.E) + g.countP (fun rc => rc.2.I) +
      g.countP (fun rc => rc.2.O) = g.length := by
  induction g with
  | nil => simp
  | cons a t ih =>
    have h1 := ei_toNat_one a.1
    rw [← hg a (List.mem_cons_self a t)] at h1
    have iht := ih (fun rc hrc => hg rc (List.mem_cons_of_mem a hrc))
    simp only [List.countP_cons, List.length_cons]
    cases hE : a.2.E <;> cases hI : a.2.I <;> cases hO : a.2.O <;>
      simp [hE, hI, hO] at h1 ⊢ <;> omega

/-- The flag rows of the classified table are those of the classifier. -/
theorem mem_cell_meta_type_flags (df : List CellRecord) (rc : CellRecord × Flags)
    (h : rc ∈ cell_meta_type_flags df) : rc.2 = type_flags_row rc.1 := by
  obtain ⟨r, _, heq⟩ := List.mem_map.mp h
  rw [← heq]

/-- The derived `T` column of a group of classifier output rows equals the
size of the group. -/
theorem mkCountRow_T_len (k : String) (df : List CellRecord) :
    (mkCountRow k ((cell_meta_type_flags df).filter
        (fun rc => rc.1.parcellation_substructure == k))).T =
      ((cell_meta_type_flags df).filter
        (fun rc => rc.1.parcellation_substructure == k)).length := by
  refine countP_eio_parts _ (fun rc hrc => ?_)
  exact mem_cell_meta_type_flags df rc (List.mem_of_mem_filter hrc)

/-- C5: every row of the grouped count table of a classified region
satisfies `T = E + I + O` and `EI = E + I` (both derived from the
per-substructure sums), and `T` equals the number of records of that
substructure. -/
theorem region_ei_ctx_derived_columns (df : List CellRecord) (row : CountRow)
    (h : row ∈ region_ei_ctx (cell_meta_type_flags df)) :
    row.T = row.E + row.I + row.O ∧ row.EI = row.E + row.I ∧
    row.T = ((cell_meta_type_flags df).filter
      (fun rc => rc.1.parcellation_substructure == row.key)).length := by
  obtain ⟨k, _, rfl⟩ := List.mem_map.mp h
  exact ⟨rfl, rfl, mkCountRow_T_len k df⟩

/-- Witness for C5 at a one-record table. -/
theorem region_ei_ctx_derived_columns_witness :
    (mkCountRow "A1" ((cell_meta_type_flags [r_vip]).filter
        (fun rc => rc.1.parcellation_substructure == "A1")))
      ∈ region_ei_ctx (cell_meta_type_flags [r_vip]) ∧
    (mkCountRow "A1" ((cell_meta_type_flags [r_vip]).filter
        (fun rc => rc.1.parcellation_substructure == "A1"))).EI =
      (mkCountRow "A1" ((cell_meta_type_flags [r_vip]).filter
        (fun rc => rc.1.parcellation_substructure == "A1"))).E +
      (mkCountRow "A1" ((cell_meta_type_flags [r_vip]).filter
        (fun rc => rc.1.parcellation_substructure == "A1"))).I :=
  ⟨by decide,
    (region_ei_ctx_derived_columns [r_vip]
      (mkCountRow "A1" ((cell_meta_type_flags [r_vip]).filter
        (fun rc => rc.1.parcellation_substructure == "A1")))
      (by decide)).2.1⟩

/-- C4: for every row of a grouped count table, the inhibitory fraction
`I / EI` of its `FractionRow` is an exact rational in `[0, 1]` when
`EI > 0`, and the `NaN` sentinel when `EI = 0`; `pdiv` is total, so no
exception can arise. -/
theorem inhibitory_fraction_range (df : List (CellRecord × Flags)) (ax : String)
    (n : ℕ) (row : CountRow) (h : row ∈ region_ei_ctx df) :
    ratio_row ax n row ∈ cell_meta_type_ratios (region_ei_ctx df) ax n ∧
    (row.EI ≠ 0 → ∃ q : ℚ, (ratio_row ax n row).inhibitory_fraction = PdFloat.val q ∧
      0 ≤ q ∧ q ≤ 1) ∧
    (row.EI = 0 → (ratio_row ax n row).inhibitory_fraction = PdFloat.nan) := by
  obtain ⟨k, _, rfl⟩ := List.mem_map.mp h
  set g := df.filter (fun rc => rc.1.parcellation_substructure == k) with hgdef
  have hIle : (mkCountRow k g).I ≤ (mkCountRow k g).EI := Nat.le_add_left _ _
  refine ⟨List.mem_map_of_mem _ h, fun hEI => ?_, fun hEI => ?_⟩
  · refine ⟨((mkCountRow k g).I : ℚ) / ((mkCountRow k g).EI : ℚ), ?_, ?_, ?_⟩
    · show pdiv (mkCountRow k g).I (mkCountRow k g).EI = _
      rw [pdiv, if_pos (by exact_mod_cast hEI)]
    · positivity
    · have hpos : (0 : ℚ) < ((mkCountRow k g).EI : ℚ) := by
        exact_mod_cast Nat.pos_of_ne_zero hEI
      rw [div_le_one hpos]
      exact_mod_cast hIle
  · have hI0 : (mkCountRow k g).I = 0 := Nat.le_zero.mp (hEI ▸ hIle)
    show pdiv (mkCountRow k g).I (mkCountRow k g).EI = _
    rw [hEI, hI0]
    rfl

/-- A record matching no lineage at all (class carries neither suffix). -/
def r_other : CellRecord := ⟨"90 Plain", "unmatched2", "A", "A2"⟩

/-- Witness for C4: a substructure with one inhibitory record exercises
the `EI > 0` branch, one with no E/I record the `EI = 0` branch. -/
theorem inhibitory_fraction_range_witness :
    (mkCountRow "A1" ((cell_meta_type_flags [r_vip]).filter
        (fun rc => rc.1.parcellation_substructure == "A1")))
      ∈ region_ei_ctx (cell_meta_type_flags [r_vip]) ∧
    (mkCountRow "A1" ((cell_meta_type_flags [r_vip]).filter
        (fun rc => rc.1.parcellation_substructure == "A1"))).EI ≠ 0 ∧
    (∃ q : ℚ, (ratio_row "A" 1 (mkCountRow "A1" ((cell_meta_type_flags [r_vip]).filter
        (fun rc => rc.1.parcellation_substructure == "A1")))).inhibitory_fraction =
      PdFloat.val q ∧ 0 ≤ q ∧ q ≤ 1) ∧
    (ratio_row "A" 1 (mkCountRow "A2" ((cell_meta_type_flags [r_other]).filter
        (fun rc => rc.1.parcellation_substructure == "A2")))).inhibitory_fraction =
      PdFloat.nan := by
  refine ⟨by decide, by decide, ?_, ?_⟩
  · exact (inhibitory_fraction_range (cell_meta_type_flags [r_vip]) "A" 1
      (mkCountRow "A1" ((cell_meta_type_flags [r_vip]).filter
        (fun rc => rc.1.parcellation_substructure == "A1")))
      (by decide)).2.1 (by decide)
  · exact (inhibitory_fraction_range (cell_meta_type_flags [r_other]) "A" 1
      (mkCountRow "A2" ((cell_meta_type_flags [r_other]).filter
        (fun rc => rc.1.parcellation_substructure == "A2")))
      (by decide)).2.2 (by decide)

/-! Lemmas about the `Layer` column. -/

/-- When the pattern occurs nowhere in the string, replacement leaves the
string unchanged (whatever the fuel). -/
theorem replace_go_no_occurrence (old new : List Char) (fuel : ℕ) (s : List Char)
    (h : ¬ (old <:+: s)) : replace_go old new fuel s = s := by
  induction fuel generalizing s with
  | zero => rfl
  | succ n ih =>
    cases s with
    | nil => rfl
    | cons c rest =>
      have hp : ¬(old ≠ [] ∧ old <+: (c :: rest)) := by
        rintro ⟨-, hpre⟩
        obtain ⟨t1, ht⟩ := hpre
        exact h ⟨[], t1, by simpa using ht⟩
      show (if old ≠ [] ∧ old <+: (c :: rest) then
          new ++ replace_go old new n ((c :: rest).drop old.length)
        else c :: replace_go old new n rest) = c :: rest
      rw [if_neg hp]
      have hrest : ¬ (old <:+: rest) := by
        intro hi
        obtain ⟨s1, t1, hst⟩ := hi
        exact h ⟨c :: s1, t1, by rw [List.cons_append, List.cons_append, hst]⟩
      rw [ih rest hrest]

/-- Replacement `x.replace(ax, "")` is the identity when `ax` occurs nowhere in `x`. -/
theorem str_replace_of_not_contains (x ax new : String)
    (h : ¬ (ax.data <:+: x.data)) : str_replace x ax new = x := by
  unfold str_replace replace_chars
  rw [replace_go_no_occurrence _ _ _ _ h]

/-- The classified record of the C8 counterexample: its substructure id
contains the region key as an interior (non-prefix) substring. -/
def ccf_cex : List CellRecord := [⟨"X Glut", "u", "VIS", "aVIS"⟩]

/-- C8 counterexample: `Layer` is computed with `x.replace(ax, "")`, which
removes every occurrence of the region key, not just a leading one.  For
region "VIS" and substructure "aVIS" the region key is not a prefix, so
the claim demands the unmodified id "aVIS", but the pipeline produces
"a". -/
theorem layer_not_prefix_strip_cex :
    ((region_ccf_cell_types ccf_cex ["VIS"]).2.2.map
        (fun p => (p.1, p.2.map (fun fr => fr.Layer)))) = [("VIS", ["a"])] ∧
    ¬ ("VIS".data <+: "aVIS".data) ∧
    ("a" : String) ≠ "aVIS" := by
  refine ⟨by decide, by decide, by decide⟩

/-- C8 (amended): the `Layer` column of every `FractionRow` equals the
substructure id with every occurrence of the region key removed
(Python `str.replace`), and when the region key occurs nowhere in the
substructure id the label is the unmodified id; the computation is total,
so no error is raised. -/
theorem fraction_row_layer_replace (ctx : List CountRow) (ax : String) (n : ℕ)
    (fr : FractionRow) (h : fr ∈ cell_meta_type_ratios ctx ax n) :
    ∃ row ∈ ctx, fr.Layer = str_replace row.key ax "" ∧
      (¬ (ax.data <:+: row.key.data) → fr.Layer = row.key) := by
  obtain ⟨row, hrow, rfl⟩ := List.mem_map.mp h
  exact ⟨row, hrow, rfl, fun hni => str_replace_of_not_contains row.key ax "" hni⟩

/-- Witness for the amended C8 at a concrete count row whose key does not
contain the region key. -/
theorem fraction_row_layer_replace_witness :
    (ratio_row "XYZ" 1 (mkCountRow "VISp1" [])) ∈
      cell_meta_type_ratios [mkCountRow "VISp1" []] "XYZ" 1 ∧
    ¬ ("XYZ".data <:+: "VISp1".data) ∧
    (∃ row ∈ [mkCountRow "VISp1" ([] : List (CellRecord × Flags))],
      (ratio_row "XYZ" 1 (mkCountRow "VISp1" [])).Layer = str_replace row.key "XYZ" "" ∧
      (¬ ("XYZ".data <:+: row.key.data) →
        (ratio_row "XYZ" 1 (mkCountRow "VISp1" [])).Layer = row.key)) :=
  ⟨List.mem_map_of_mem _ (List.mem_singleton_self _), by decide,
    fraction_row_layer_replace [mkCountRow "VISp1" []] "XYZ" 1
      (ratio_row "XYZ" 1 (mkCountRow "VISp1" []))
      (List.mem_map_of_mem _ (List.mem_singleton_self _))⟩

/-! Lemmas about absent regions and substructures. -/

/-- Insertion keeps the elements. -/
theorem ordered_insert_perm (a : String) (l : List String) :
    List.Perm (ordered_insert a l) (a :: l) := by
  induction l with
  | nil => exact List.Perm.refl _
  | cons b t ih =>
    show List.Perm (if str_le a b then a :: b :: t else b :: ordered_insert a t) _
    split
    · exact List.Perm.refl _
    · exact (List.Perm.cons b ih).trans (List.Perm.swap a b t)

/-- Sorting the group keys is a permutation. -/
theorem sort_keys_perm (l : List String) : List.Perm (sort_keys l) l := by
  induction l with
  | nil => exact List.Perm.refl _
  | cons a t ih =>
    show List.Perm (ordered_insert a (sort_keys t)) (a :: t)
    exact (ordered_insert_perm a (sort_keys t)).trans (ih.cons a)

/-- Every group key is the substructure of some record of the table. -/
theorem group_keys_mem (df : List (CellRecord × Flags)) (k : String)
    (h : k ∈ group_keys df) : ∃ rc ∈ df, rc.1.parcellation_substructure = k := by
  rw [group_keys] at h
  have h2 := (sort_keys_perm _).mem_iff.mp h
  have h3 := List.mem_dedup.mp h2
  obtain ⟨rc, hrc, hk⟩ := List.mem_map.mp h3
  exact ⟨rc, hrc, hk⟩

/-- The index of the grouped count table is exactly the key list. -/
theorem region_ei_ctx_keys (df : List (CellRecord × Flags)) :
    (region_ei_ctx df).map CountRow.key = group_keys df := by
  rw [region_ei_ctx, List.map_map]
  exact List.map_id'' (fun _ => rfl) _

/-- A region key present in the first output map comes from a region with
at least one matching record. -/
theorem mem_region_out_keys (ccf : List CellRecord) (rl : List String) (region : String)
    (h : region ∈ (region_ccf_cell_types ccf rl).1.map Prod.fst) :
    (ccf.filter (fun r => r.parcellation_structure == region)).length ≠ 0 := by
  induction rl with
  | nil => simp [region_ccf_cell_types] at h
  | cons r0 rest ih =>
    simp only [region_ccf_cell_types] at h
    split at h
    next => exact ih h
    next hlen =>
      simp only [List.map_cons, List.mem_cons] at h
      rcases h with rfl | h
      · exact hlen
      · exact ih h

/-- All three output maps carry the same region keys. -/
theorem region_out_keys_eq (ccf : List CellRecord) (rl : List String) :
    (region_ccf_cell_types ccf rl).2.1.map Prod.fst =
      (region_ccf_cell_types ccf rl).1.map Prod.fst ∧
    (region_ccf_cell_types ccf rl).2.2.map Prod.fst =
      (region_ccf_cell_types ccf rl).1.map Prod.fst := by
  induction rl with
  | nil => exact ⟨rfl, rfl⟩
  | cons r0 rest ih =>
    simp only [region_ccf_cell_types]
    split
    · exact ih
    · simp only [List.map_cons]
      exact ⟨by rw [ih.1], by rw [ih.2]⟩

/-- C6: a requested region with no matching record contributes no entry to
any of the three output mappings of `region_ccf_cell_types` (the
computation is total, so nothing is raised), and a substructure with no
matching record yields no `CountRow` and hence no `FractionRow` (the
ratio table has exactly one row per count row). -/
theorem empty_region_substructure_absent (ccf : List CellRecord) (rl : List String)
    (region : String) (df : List (CellRecord × Flags)) (k ax : String) (n : ℕ)
    (h1 : ccf.filter (fun r => r.parcellation_structure == region) = [])
    (h2 : df.filter (fun rc => rc.1.parcellation_substructure == k) = []) :
    region ∉ (region_ccf_cell_types ccf rl).1.map Prod.fst ∧
    region ∉ (region_ccf_cell_types ccf rl).2.1.map Prod.fst ∧
    region ∉ (region_ccf_cell_types ccf rl).2.2.map Prod.fst ∧
    k ∉ (region_ei_ctx df).map CountRow.key ∧
    (cell_meta_type_ratios (region_ei_ctx df) ax n).length = (region_ei_ctx df).length := by
  have habs : region ∉ (region_ccf_cell_types ccf rl).1.map Prod.fst := by
    intro hmem
    exact mem_region_out_keys ccf rl region hmem (by rw [h1]; rfl)
  refine ⟨habs, ?_, ?_, ?_, List.length_map _ _⟩
  · rw [(region_out_keys_eq ccf rl).1]; exact habs
  · rw [(region_out_keys_eq ccf rl).2]; exact habs
  · rw [region_ei_ctx_keys]
    intro hk
    obtain ⟨rc, hrc, hsub⟩ := group_keys_mem df k hk
    have : rc ∈ df.filter (fun rc => rc.1.parcellation_substructure == k) :=
      List.mem_filter.mpr ⟨hrc, by simp [hsub]⟩
    rw [h2] at this
    exact absurd this (List.not_mem_nil rc)

/-- Witness for C6: region "NOPE" and substructure "zz" match nothing in a
one-record table. -/
theorem empty_region_substructure_absent_witness :
    ([r_vip].filter (fun r => r.parcellation_structure == "NOPE") = []) ∧
    ((cell_meta_type_flags [r_vip]).filter
      (fun rc => rc.1.parcellation_substructure == "zz") = []) ∧
    ("NOPE" ∉ (region_ccf_cell_types [r_vip] ["A", "NOPE"]).1.map Prod.fst ∧
     "NOPE" ∉ (region_ccf_cell_types [r_vip] ["A", "NOPE"]).2.1.map Prod.fst ∧
     "NOPE" ∉ (region_ccf_cell_types [r_vip] ["A", "NOPE"]).2.2.map Prod.fst ∧
     "zz" ∉ (region_ei_ctx (cell_meta_type_flags [r_vip])).map CountRow.key ∧
     (cell_meta_type_ratios (region_ei_ctx (cell_meta_type_flags [r_vip])) "A" 1).length =
       (region_ei_ctx (cell_meta_type_flags [r_vip])).length) :=
  ⟨by decide, by decide,
    empty_region_substructure_absent [r_vip] ["A", "NOPE"] "NOPE"
      (cell_meta_type_flags [r_vip]) "zz" "A" 1 (by decide) (by decide)⟩

/-! Lemmas for the region-share column. -/

/-- Counting after a map counts the composed predicate. -/
theorem countP_map_general {α β : Type} (p : β → Bool) (f : α → β) (l : List α) :
    (l.map f).countP p = l.countP (fun x => p (f x)) := by
  induction l with
  | nil => rfl
  | cons a t ih => simp [List.countP_cons, ih]

/-- The substructure groups partition the classified table: their sizes
sum to the table size. -/
theorem sum_group_sizes (df : List (CellRecord × Flags)) :
    ((group_keys df).map (fun k =>
      (df.filter (fun rc => rc.1.parcellation_substructure == k)).length)).sum =
      df.length := by
  have hperm := (sort_keys_perm
    ((df.map (fun rc => rc.1.parcellation_substructure)).dedup)).map
    (fun k => (df.filter (fun rc => rc.1.parcellation_substructure == k)).length)
  rw [group_keys, hperm.sum_eq]
  have hc : ∀ k : String,
      (df.filter (fun rc => rc.1.parcellation_substructure == k)).length =
        (df.map (fun rc => rc.1.parcellation_substructure)).count k := by
    intro k
    rw [← List.countP_eq_length_filter, List.count, countP_map_general]
  simp only [hc]
  rw [← List.length_map df (fun rc => rc.1.parcellation_substructure)]
  exact List.sum_map_count_dedup_eq_length _

/-- The `T` column summed over the grouped count table of a classified
region gives the record count of the region. -/
theorem sum_T_eq_length (df : List CellRecord) :
    ((region_ei_ctx (cell_meta_type_flags df)).map CountRow.T).sum = df.length := by
  rw [region_ei_ctx, List.map_map]
  have hcongr : ∀ k ∈ group_keys (cell_meta_type_flags df),
      (CountRow.T ∘ fun k => mkCountRow k ((cell_meta_type_flags df).filter
        (fun rc => rc.1.parcellation_substructure == k))) k =
      ((cell_meta_type_flags df).filter
        (fun rc => rc.1.parcellation_substructure == k)).length := by
    intro k _
    exact mkCountRow_T_len k df
  rw [List.map_congr_left hcongr, sum_group_sizes]
  exact List.length_map _ _

/-- Dividing each entry by a constant and summing divides the cast sum. -/
theorem list_sum_div (l : List ℕ) (c : ℚ) :
    (l.map (fun (a : ℕ) => (a : ℚ) / c)).sum = (l.sum : ℚ) / c := by
  induction l with
  | nil =>
    rw [List.map_nil, List.sum_nil, List.sum_nil, Nat.cast_zero, zero_div]
  | cons a t ih =>
    rw [List.map_cons, List.sum_cons, ih, List.sum_cons, Nat.cast_add, add_div]

/-- An entry of the third output map comes from a nonempty region filter
and is the ratio table of the grouped counts of that region. -/
theorem mem_region_frac (ccf : List CellRecord) (rl : List String) (region : String)
    (ft : List FractionRow) (h : (region, ft) ∈ (region_ccf_cell_types ccf rl).2.2) :
    (ccf.filter (fun r => r.parcellation_structure == region)).length ≠ 0 ∧
    ft = cell_meta_type_ratios
      (region_ei_ctx (cell_meta_type_flags
        (ccf.filter (fun r => r.parcellation_structure == region)))) region
      (ccf.filter (fun r => r.parcellation_structure == region)).length := by
  induction rl with
  | nil => simp [region_ccf_cell_types] at h
  | cons r0 rest ih =>
    simp only [region_ccf_cell_types] at h
    split at h
    next => exact ih h
    next hlen =>
      simp only [List.mem_cons] at h
      rcases h with heq | h
      · have h1 := congrArg Prod.fst heq
        have h2 := congrArg Prod.snd heq
        simp only at h1 h2
        subst h1
        subst h2
        exact ⟨hlen, rfl⟩
      · exact ih h

/-- C10: for every region entry of the third output map, with every record
carrying a substructure value (they all do in this embedding), the
`fraction wi. region` entries are exact rationals summing to exactly 1:
the denominator is the record count of the region, which equals the sum of the
per-substructure `T` counts. -/
theorem fraction_wi_region_sums_to_one (ccf : List CellRecord) (rl : List String)
    (region : String) (ft : List FractionRow)
    (h : (region, ft) ∈ (region_ccf_cell_types ccf rl).2.2) :
    ∃ qs : List ℚ, ft.map FractionRow.fraction_wi_region = qs.map PdFloat.val ∧
      qs.sum = 1 := by
  obtain ⟨hne, hft⟩ := mem_region_frac ccf rl region ft h
  have hq : ((ccf.filter (fun r => r.parcellation_structure == region)).length : ℚ) ≠ 0 := by
    exact_mod_cast hne
  refine ⟨((region_ei_ctx (cell_meta_type_flags
      (ccf.filter (fun r => r.parcellation_structure == region)))).map
        CountRow.T).map
      (fun (a : ℕ) => (a : ℚ) /
        ((ccf.filter (fun r => r.parcellation_structure == region)).length : ℚ)), ?_, ?_⟩
  · rw [hft, cell_meta_type_ratios, List.map_map, List.map_map, List.map_map]
    refine List.map_congr_left (fun row _ => ?_)
    show pdiv row.T (ccf.filter (fun r => r.parcellation_structure == region)).length = _
    rw [pdiv, if_pos hne]
    rfl
  · rw [list_sum_div, sum_T_eq_length]
    exact div_self hq

/-- Witness for C10 at a one-record region. -/
theorem fraction_wi_region_sums_to_one_witness :
    ("A", cell_meta_type_ratios
        (region_ei_ctx (cell_meta_type_flags
          ([r_vip].filter (fun r => r.parcellation_structure == "A")))) "A"
        ([r_vip].filter (fun r => r.parcellation_structure == "A")).length)
      ∈ (region_ccf_cell_types [r_vip] ["A"]).2.2 ∧
    (∃ qs : List ℚ,
      (cell_meta_type_ratios
        (region_ei_ctx (cell_meta_type_flags
          ([r_vip].filter (fun r => r.parcellation_structure == "A")))) "A"
        ([r_vip].filter (fun r => r.parcellation_structure == "A")).length).map
          FractionRow.fraction_wi_region = qs.map PdFloat.val ∧ qs.sum = 1) := by
  have hmem : ("A", cell_meta_type_ratios
      (region_ei_ctx (cell_meta_type_flags
        ([r_vip].filter (fun r => r.parcellation_structure == "A")))) "A"
      ([r_vip].filter (fun r => r.parcellation_structure == "A")).length)
      ∈ (region_ccf_cell_types [r_vip] ["A"]).2.2 := by
    exact List.mem_cons_self _ _
  exact ⟨hmem, fraction_wi_region_sums_to_one [r_vip] ["A"] "A" _ hmem⟩

/-! Lemmas about the result flattener. -/

/-- The inner loop of one query result appends its rows to the accumulator. -/
theorem qry_result_foldl {α : Type} (qr : List (String × List (String × RVal α)))
    (acc : List (RVal α)) :
    qr.foldl (fun acc2 p =>
        if has_sub_region p.2 then acc2 ++ p.2.map (fun q => q.2)
        else acc2 ++ [RVal.dict p.2]) acc =
      acc ++ qr.flatMap (fun p =>
        if has_sub_region p.2 then p.2.map (fun q => q.2) else [RVal.dict p.2]) := by
  induction qr generalizing acc with
  | nil => simp
  | cons p t ih =>
    cases hs : has_sub_region p.2 <;>
      simp [List.foldl_cons, List.flatMap_cons, hs, ih, List.append_assoc]

/-- The whole accumulation loop appends the flattened rows. -/
theorem qry2dict_go {α : Type}
    (in_iter : List (List (String × List (String × RVal α))))
    (acc : List (RVal α)) :
    in_iter.foldl
      (fun subr_stats qry_result =>
        qry_result.foldl
          (fun acc2 p =>
            if has_sub_region p.2 then acc2 ++ p.2.map (fun q => q.2)
            else acc2 ++ [RVal.dict p.2])
          subr_stats)
      acc =
      acc ++ in_iter.flatMap (fun qr =>
        qr.flatMap (fun p =>
          if has_sub_region p.2 then p.2.map (fun q => q.2) else [RVal.dict p.2])) := by
  induction in_iter generalizing acc with
  | nil => simp
  | cons qr t ih =>
    simp only [List.foldl_cons, List.flatMap_cons]
    rw [qry_result_foldl, ih, List.append_assoc]

/-- The loop is the order-preserving flattening. -/
theorem qry2dict_eq_flatten {α : Type}
    (in_iter : List (List (String × List (String × RVal α)))) :
    qry2dict in_iter = in_iter.flatMap (fun qr =>
      qr.flatMap (fun p =>
        if has_sub_region p.2 then p.2.map (fun q => q.2) else [RVal.dict p.2])) := by
  rw [qry2dict, qry2dict_go, List.nil_append]

/-- C7: `qry2dict` emits, in the iteration order of the input sequence,
then of the outer map, the rows of each region value map: the map itself
as a single row when none of its values is a mapping, and one row per
value (the innermost leaf maps, in inner-map order) when a nested level
is present. -/
theorem qry2dict_row_semantics (α : Type) :
    (∀ (in_iter : List (List (String × List (String × RVal α)))),
      qry2dict in_iter = in_iter.flatMap (fun qr =>
        qr.flatMap (fun p =>
          if has_sub_region p.2 then p.2.map (fun q => q.2) else [RVal.dict p.2]))) ∧
    (∀ (rx : String) (d : List (String × RVal α)),
      has_sub_region d = false → qry2dict [[(rx, d)]] = [RVal.dict d]) ∧
    (∀ (rx : String) (d : List (String × RVal α)),
      has_sub_region d = true → qry2dict [[(rx, d)]] = d.map (fun q => q.2)) := by
  refine ⟨qry2dict_eq_flatten, fun rx d hd => ?_, fun rx d hd => ?_⟩
  · rw [qry2dict_eq_flatten]
    simp [hd]
  · rw [qry2dict_eq_flatten]
    simp [hd]

/-- A flat region map: no value is a mapping. -/
def d_flat : List (String × RVal ℕ) := [("x", RVal.scal 1), ("y", RVal.scal 2)]

/-- A nested region map: every value is a leaf mapping. -/
def d_nested : List (String × RVal ℕ) :=
  [("s1", RVal.dict [("m", RVal.scal 3)]), ("s2", RVal.dict [("m", RVal.scal 4)])]

/-- Witness for C7: both nesting depths at concrete inputs. -/
theorem qry2dict_row_semantics_witness :
    has_sub_region d_flat = false ∧
    has_sub_region d_nested = true ∧
    qry2dict [[("r", d_flat)]] = [RVal.dict d_flat] ∧
    qry2dict [[("r", d_nested)]] = d_nested.map (fun q => q.2) :=
  ⟨rfl, rfl, (qry2dict_row_semantics ℕ).2.1 "r" d_flat rfl,
    (qry2dict_row_semantics ℕ).2.2 "r" d_nested rfl⟩

/-! Frame lemmas for the object-store embedding. -/

/-- Allocation bumps the fresh-reference counter. -/
theorem halloc_next (h : Heap) (t : FTable) : (halloc h t).1.next = h.next + 1 := rfl

/-- Allocation returns the previously fresh reference. -/
theorem halloc_ref (h : Heap) (t : FTable) : (halloc h t).2 = h.next := rfl

/-- A store keeps the counter. -/
theorem hwrite_next (h : Heap) (r : ℕ) (t : FTable) : (hwrite h r t).next = h.next := rfl

/-- Allocation does not disturb already-allocated frames. -/
theorem hread_halloc_lt (h : Heap) (t : FTable) (x : ℕ) (hx : x < h.next) :
    hread (halloc h t).1 x = hread h x := by
  have hne : x ≠ h.next := Nat.ne_of_lt hx
  simp [hread, halloc, hne]

/-- A store to one frame does not disturb any other frame. -/
theorem hread_hwrite_ne (h : Heap) (r : ℕ) (t : FTable) (x : ℕ) (hx : x ≠ r) :
    hread (hwrite h r t) x = hread h x := by
  simp [hread, hwrite, hx]

/-- The GABA pass keeps the counter. -/
theorem gaba_st_next (h : Heap) (r : ℕ) : (cell_meta_gaba_flags_st h r).next = h.next := by
  rw [cell_meta_gaba_flags_st]
  split
  · rfl
  · simp only [write_col, hwrite_next]

/-- The GABA pass writes only to its own frame. -/
theorem gaba_st_read_ne (h : Heap) (r x : ℕ) (hx : x ≠ r) :
    hread (cell_meta_gaba_flags_st h r) x = hread h x := by
  rw [cell_meta_gaba_flags_st]
  split
  · rfl
  · simp only [write_col]
    simp [hread_hwrite_ne, hx]

/-- The Glut pass keeps the counter. -/
theorem glut_st_next (h : Heap) (r : ℕ) : (cell_meta_glut_flags_st h r).next = h.next := by
  rw [cell_meta_glut_flags_st]
  split
  · rfl
  · simp only [write_col, hwrite_next]

/-- The Glut pass writes only to its own frame. -/
theorem glut_st_read_ne (h : Heap) (r x : ℕ) (hx : x ≠ r) :
    hread (cell_meta_glut_flags_st h r) x = hread h x := by
  rw [cell_meta_glut_flags_st]
  split
  · rfl
  · simp only [write_col]
    simp [hread_hwrite_ne, hx]

/-- The whole classifier allocates one frame. -/
theorem type_st_next (h : Heap) (r : ℕ) :
    (cell_meta_type_flags_st h r).1.next = h.next + 1 := by
  simp only [cell_meta_type_flags_st, cell_meta_ei_flags_st]
  rw [glut_st_next, gaba_st_next, halloc_next]

/-- The whole classifier hands back the freshly allocated reference. -/
theorem type_st_ref (h : Heap) (r : ℕ) : (cell_meta_type_flags_st h r).2 = h.next := rfl

/-- The classifier mutates only the frame it allocates. -/
theorem type_st_read_lt (h : Heap) (r x : ℕ) (hx : x < h.next) :
    hread (cell_meta_type_flags_st h r).1 x = hread h x := by
  have hxne : x ≠ h.next := Nat.ne_of_lt hx
  simp only [cell_meta_type_flags_st, cell_meta_ei_flags_st, halloc_ref]
  rw [glut_st_read_ne _ _ _ hxne, gaba_st_read_ne _ _ _ hxne, hread_halloc_lt _ _ _ hx]

/-- Frame property of the whole orchestration: an already-allocated frame
is never written, and the counter never decreases. -/
theorem st_frame (ccfRef : ℕ) (rl : List String) : ∀ (h : Heap), ccfRef < h.next →
    hread (region_ccf_cell_types_st h ccfRef rl).1 ccfRef = hread h ccfRef ∧
    h.next ≤ (region_ccf_cell_types_st h ccfRef rl).1.next := by
  induction rl with
  | nil => exact fun h _ => ⟨rfl, Nat.le_refl _⟩
  | cons region rest ih =>
    intro h hlt
    simp only [region_ccf_cell_types_st]
    split
    · exact ih h hlt
    · set V := (hread h ccfRef).filter (fun row => row.1.parcellation_structure == region)
        with hVdef
      set H1 := (halloc h V).1 with hH1def
      set A1 := (halloc h V).2 with hA1def
      set HR := cell_meta_type_flags_st H1 A1 with hHRdef
      set H3 := (halloc HR.1 (select_cols (hread HR.1 HR.2))).1 with hH3def
      have f1 : hread H1 ccfRef = hread h ccfRef := hread_halloc_lt h V ccfRef hlt
      have f2 : H1.next = h.next + 1 := halloc_next h V
      have hlt1 : ccfRef < H1.next := by omega
      have f3 : hread HR.1 ccfRef = hread H1 ccfRef := by
        rw [hHRdef]
        exact type_st_read_lt H1 A1 ccfRef hlt1
      have f4 : HR.1.next = H1.next + 1 := by
        rw [hHRdef]
        exact type_st_next H1 A1
      have hlt2 : ccfRef < HR.1.next := by omega
      have f5 : hread H3 ccfRef = hread HR.1 ccfRef := hread_halloc_lt _ _ _ hlt2
      have f6 : H3.next = HR.1.next + 1 := halloc_next _ _
      have hlt3 : ccfRef < H3.next := by omega
      obtain ⟨g1, g2⟩ := ih H3 hlt3
      constructor
      · show hread (region_ccf_cell_types_st H3 ccfRef rest).1 ccfRef = hread h ccfRef
        rw [g1, f5, f3, f1]
      · show h.next ≤ (region_ccf_cell_types_st H3 ccfRef rest).1.next
        omega

/-- C9: `region_ccf_cell_types` never writes to its input frame: starting
from a store holding only the input table, every flag column is written to
a copy allocated by the region loop, and after the whole call the input
frame still holds exactly its original rows and columns. -/
theorem region_ccf_cell_types_input_unchanged (t : FTable) (rl : List String) :
    hread (region_ccf_cell_types_st (halloc hempty t).1 (halloc hempty t).2 rl).1
      (halloc hempty t).2 = t := by
  have h0 : (halloc hempty t).2 < (halloc hempty t).1.next := by
    rw [halloc_ref, halloc_next]
    omega
  rw [(st_frame (halloc hempty t).2 rl (halloc hempty t).1 h0).1]
  simp [hread, halloc, hempty]
